import Mathlib

/-!
Verification of the briefing retrieval/fallback layer of the climate-insight
repository, as a shallow embedding in Lean 4.

The embedded code is the locale-aware briefing accessor module
(`getBriefingPath`, `getBriefingIndex`, `getBriefing`, `getBriefingsByDate`,
`getRecentBriefings`) together with the config resolver it imports
(`API_BASE`).

Storage and transport are modelled by a `World : String → Resp` that maps each
URL to the behaviour a `fetch` of that URL observes: a 2xx response carrying a
body that either parses to a JSON document or is malformed, a non-2xx
response, or a network error (the `fetch` promise rejects).  Exceptions are
modelled with `Except Unit`: a `.error ()` value is an exception travelling to
the enclosing `catch`.  Every function additionally returns the trace of URLs
it fetched, in order, so that the fetch-count properties can be stated.
-/

namespace ClimateInsight

/-- The parsed JSON document model, restricted to the fields this layer reads.
`date` and `content` model the briefing payload (the `date` field of a
`DailyBriefing` and the rest of the document); the optional fields model the
index manifest (`available_dates`, `latest`, `dates_detail`,
`total_briefings`).  An absent field is `none` (JS `undefined`). -/
structure JsonDoc where
  date : String
  content : String
  available_dates : Option (List String)
  latest : Option String
  dates_detail : Option Nat
  total_briefings : Option Nat
deriving DecidableEq

/-- The normalized `BriefingIndex` returned by `getBriefingIndex`. -/
structure BriefingIndex where
  dates : List String
  latest : Option String
  dates_detail : Option Nat
  total_briefings : Option Nat
deriving DecidableEq

/-- Behaviour of the storage/transport at one URL: 2xx with a body (`none`
body = malformed JSON, so `res.json()` throws), non-2xx, or a network error
(the `fetch` itself throws). -/
inductive Resp where
  | ok (body : Option JsonDoc)
  | notOk
  | netErr
deriving DecidableEq

/-- A storage/transport behaviour: what each URL answers. -/
abbrev World := String → Resp

/-- A `fetch` that did not throw: the response object, with `res.ok` either
true (2xx, constructor `ok`) or false (`notOk`). -/
inductive FetchRes where
  | ok (body : Option JsonDoc)
  | notOk
deriving DecidableEq

/-- The `res.ok` flag of a response. -/
def FetchRes.isOk : FetchRes → Bool
  | .ok _ => true
  | .notOk => false

/-- One `await fetch(url)`: a network error is a thrown exception. -/
def toFetchRes : Resp → Except Unit FetchRes
  | .ok b => .ok (.ok b)
  | .notOk => .ok .notOk
  | .netErr => .error ()

/-- One `await res.json()` on a 2xx response: a malformed body throws. -/
def resJson : Option JsonDoc → Except Unit JsonDoc
  | some d => .ok d
  | none => .error ()

/-- The development default of the config resolver (`LOCAL_API_BASE` with no
environment override).  The claims do not depend on its value. -/
def API_BASE : String := "/data"

/-- The JS `dateOrKey.endsWith(suffix)` check, computed on the character
sequence of the string. -/
def strEndsWith (s suffix : String) : Bool :=
  suffix.data.isSuffixOf s.data

/-- Source `getBriefingPath`: the locale-specific briefing base path.  Every
locale other than `"en"` resolves to the default path. -/
def getBriefingPath (locale : String) : String :=
  if locale == "en" then API_BASE ++ "/briefing/en" else API_BASE ++ "/briefing"

/-- A trace of fetched URLs, in order. -/
abbrev Trace := List String

/-- The URL of a briefing file: source pattern `{basePath}/{filename}.json`. -/
def briefingUrl (basePath filename : String) : String :=
  basePath ++ "/" ++ filename ++ ".json"

/-- The repeated locale-fallback fetch pattern of the source:
`let res = await fetch(u1); if (!res.ok && useFallback) res = await fetch(u2);`
where `useFallback` is the `locale === "en"` test at each use site.  Returns
the final response (or the exception) and the URLs fetched. -/
def fetchWithFallback (w : World) (u1 u2 : String) (useFallback : Bool) :
    Except Unit FetchRes × Trace :=
  match toFetchRes (w u1) with
  | .error e => (.error e, [u1])
  | .ok r =>
    if !r.isOk && useFallback then
      (toFetchRes (w u2), [u1, u2])
    else
      (.ok r, [u1])

/-- The common tail of `getBriefing` (and the body of the legacy block of
`getBriefingsByDate`): fetch `{filename}.json` at the locale path with
default-locale fallback; on non-2xx log and return null, else parse.  `t0` is
the trace accumulated before this point. -/
def finalFetch (w : World) (basePath fallbackPath filename locale : String)
    (t0 : Trace) : Except Unit (Option JsonDoc) × Trace :=
  match fetchWithFallback w (briefingUrl basePath filename)
      (briefingUrl fallbackPath filename) (locale == "en") with
  | (.error e, t) => (.error e, t0 ++ t)
  | (.ok .notOk, t) => (.ok none, t0 ++ t)
  | (.ok (.ok body), t) => ((resJson body).map some, t0 ++ t)

/-- The `period` argument of `getBriefing` ("morning" or "afternoon"). -/
inductive Period where
  | morning
  | afternoon
deriving DecidableEq

/-- The string interpolated for a period value. -/
def Period.str : Period → String
  | .morning => "morning"
  | .afternoon => "afternoon"

/-- The `try` block of the source `getBriefing`: a `.error ()` result models
an exception reaching the outer `catch`.  Mirrors the source exactly: the
suffix test on `dateOrKey`, the explicit-period filename, and in the
no-period case the afternoon-then-morning attempts (each with en-to-default
locale fallback, each returning the parsed body on a 2xx response) before the
final fetch of the bare `dateOrKey` filename. -/
def getBriefingTry (w : World) (dateOrKey : String) (period : Option Period)
    (locale : String) : Except Unit (Option JsonDoc) × Trace :=
  let basePath := getBriefingPath locale
  let fallbackPath := API_BASE ++ "/briefing"
  if strEndsWith dateOrKey "-morning" || strEndsWith dateOrKey "-afternoon" then
    finalFetch w basePath fallbackPath dateOrKey locale []
  else
    match period with
    | some p => finalFetch w basePath fallbackPath (dateOrKey ++ "-" ++ p.str) locale []
    | none =>
      match fetchWithFallback w (briefingUrl basePath (dateOrKey ++ "-afternoon"))
          (briefingUrl fallbackPath (dateOrKey ++ "-afternoon")) (locale == "en") with
      | (.error e, t1) => (.error e, t1)
      | (.ok (.ok body), t1) => ((resJson body).map some, t1)
      | (.ok .notOk, t1) =>
        match fetchWithFallback w (briefingUrl basePath (dateOrKey ++ "-morning"))
            (briefingUrl fallbackPath (dateOrKey ++ "-morning")) (locale == "en") with
        | (.error e, t2) => (.error e, t1 ++ t2)
        | (.ok (.ok body), t2) => ((resJson body).map some, t1 ++ t2)
        | (.ok .notOk, t2) =>
          finalFetch w basePath fallbackPath dateOrKey locale (t1 ++ t2)

/-- Source `getBriefing`: the outer `catch` converts any exception of the
`try` block into a null return. -/
def getBriefing (w : World) (dateOrKey : String) (period : Option Period)
    (locale : String) : Option JsonDoc :=
  match (getBriefingTry w dateOrKey period locale).1 with
  | .ok v => v
  | .error _ => none

/-- The URLs fetched by one `getBriefing` call, in order. -/
def getBriefingFetches (w : World) (dateOrKey : String) (period : Option Period)
    (locale : String) : Trace :=
  (getBriefingTry w dateOrKey period locale).2

/-- The JS expression `data.available_dates?.[0] ?? null`. -/
def headOrNull (l : Option (List String)) : Option String :=
  match l with
  | some l => l.head?
  | none => none

/-- The JS expression `a || b` for a string-valued field `a`: both
`undefined` and the empty string are falsy and select `b`. -/
def jsOrString (a b : Option String) : Option String :=
  match a with
  | some s => if s = "" then b else some s
  | none => b

/-- The index normalization of the source `getBriefingIndex`:
`dates` from `data.available_dates || []`, `latest` from
`data.latest || (data.available_dates?.[0] ?? null)`, the detail fields passed
through. -/
def normalizeIndex (data : JsonDoc) : BriefingIndex :=
  { dates := data.available_dates.getD []
    latest := jsOrString data.latest (headOrNull data.available_dates)
    dates_detail := data.dates_detail
    total_briefings := data.total_briefings }

/-- The `try` block of the source `getBriefingIndex`: fetch the locale index,
fall back to the default-locale index when the locale is `"en"`, return null
on non-2xx, else parse and normalize. -/
def getBriefingIndexTry (w : World) (locale : String) :
    Except Unit (Option BriefingIndex) × Trace :=
  let basePath := getBriefingPath locale
  match fetchWithFallback w (basePath ++ "/index.json")
      (API_BASE ++ "/briefing/index.json") (locale == "en") with
  | (.error e, t) => (.error e, t)
  | (.ok .notOk, t) => (.ok none, t)
  | (.ok (.ok body), t) => ((resJson body).map (fun data => some (normalizeIndex data)), t)

/-- Source `getBriefingIndex`: the outer `catch` converts any exception into
a null return. -/
def getBriefingIndex (w : World) (locale : String) : Option BriefingIndex :=
  match (getBriefingIndexTry w locale).1 with
  | .ok v => v
  | .error _ => none

/-- The URLs fetched by one `getBriefingIndex` call, in order. -/
def getBriefingIndexFetches (w : World) (locale : String) : Trace :=
  (getBriefingIndexTry w locale).2

/-- Source `getBriefingsByDate`: morning then afternoon via `getBriefing`
(each already catching its own failures), then, only if both were absent, the
legacy bare-date document inside a `try` whose `catch` ignores the error.  The
legacy block is the same fetch-fallback-parse shape as the tail of
`getBriefing`, so it is expressed with `finalFetch`; its thrown errors and its
non-2xx results alike contribute no element. -/
def getBriefingsByDate (w : World) (date locale : String) : List JsonDoc :=
  let basePath := getBriefingPath locale
  let fallbackPath := API_BASE ++ "/briefing"
  let briefings :=
    (match getBriefing w date (some .morning) locale with
      | some m => [m]
      | none => []) ++
    (match getBriefing w date (some .afternoon) locale with
      | some a => [a]
      | none => [])
  if briefings.length = 0 then
    match (finalFetch w basePath fallbackPath date locale []).1 with
    | .ok (some d) => [d]
    | _ => []
  else briefings

/-- Source `getRecentBriefings`: empty when the index is null or has no dates
(the JS test `!index?.dates.length`); otherwise the first `days` dates
(`slice(0, days)`, with the TS `number` count modelled as a `Nat`), each
resolved through `getBriefing`, keeping the non-null results in order. -/
def getRecentBriefings (w : World) (days : Nat) (locale : String) : List JsonDoc :=
  match getBriefingIndex w locale with
  | none => []
  | some index =>
    if index.dates.length = 0 then []
    else
      let recentDates := index.dates.take days
      (recentDates.map (fun date => getBriefing w date none locale)).filterMap id

/-! Concrete documents and storage behaviours used in witnesses and
counterexamples. -/

/-- A concrete afternoon briefing document. -/
def docA : JsonDoc := ⟨"2025-01-01", "afternoon briefing", none, none, none, none⟩

/-- A concrete morning briefing document. -/
def docM : JsonDoc := ⟨"2025-01-01", "morning briefing", none, none, none, none⟩

/-- A concrete legacy bare-date briefing document. -/
def docL : JsonDoc := ⟨"2025-01-01", "legacy briefing", none, none, none, none⟩

/-- A briefing document whose date field matches the date it is stored under. -/
def docC : JsonDoc := ⟨"2025-01-02", "consistent briefing", none, none, none, none⟩

/-- A briefing document stored under 2025-01-02 but carrying another date. -/
def docW : JsonDoc := ⟨"1999-01-01", "mislabelled briefing", none, none, none, none⟩

/-- An index manifest whose `latest` field is present but is the empty
string. -/
def idxEmptyLatest : JsonDoc := ⟨"", "", some ["2025-01-01"], some "", some 5, some 7⟩

/-- An index manifest listing the single date 2025-01-02. -/
def idxSingle : JsonDoc := ⟨"", "", some ["2025-01-02"], some "2025-01-02", none, none⟩

/-- Storage with both period documents for 2025-01-01 at the default-locale
path. -/
def wBoth : World := fun u =>
  if u = "/data/briefing/2025-01-01-afternoon.json" then .ok (some docA)
  else if u = "/data/briefing/2025-01-01-morning.json" then .ok (some docM)
  else .notOk

/-- Storage with only the legacy bare-date document for 2025-01-01. -/
def wLegacyOnly : World := fun u =>
  if u = "/data/briefing/2025-01-01.json" then .ok (some docL) else .notOk

/-- Storage with an English afternoon document and a default-locale legacy
document for 2025-01-01, and the English bare-date document absent. -/
def wEnPeriod : World := fun u =>
  if u = "/data/briefing/en/2025-01-01-afternoon.json" then .ok (some docA)
  else if u = "/data/briefing/2025-01-01.json" then .ok (some docL)
  else .notOk

/-- Storage whose afternoon document responds 2xx with a malformed body while
the morning document exists and parses. -/
def wMalformed : World := fun u =>
  if u = "/data/briefing/2025-01-01-afternoon.json" then .ok none
  else if u = "/data/briefing/2025-01-01-morning.json" then .ok (some docM)
  else .notOk

/-- Storage where every URL answers non-2xx. -/
def wAllAbsent : World := fun _ => .notOk

/-- Storage where every fetch fails with a network error. -/
def wAllErr : World := fun _ => .netErr

/-- Storage with an index for 2025-01-02 whose stored afternoon document
carries a different date in its date field. -/
def wWrongDate : World := fun u =>
  if u = "/data/briefing/index.json" then .ok (some idxSingle)
  else if u = "/data/briefing/2025-01-02-afternoon.json" then .ok (some docW)
  else .notOk

/-- Storage with an index for 2025-01-02 and a date-consistent afternoon
document. -/
def wConsistent : World := fun u =>
  if u = "/data/briefing/index.json" then .ok (some idxSingle)
  else if u = "/data/briefing/2025-01-02-afternoon.json" then .ok (some docC)
  else .notOk

/-- Storage that only serves the empty-latest index manifest. -/
def wEmptyLatest : World := fun u =>
  if u = "/data/briefing/index.json" then .ok (some idxEmptyLatest) else .notOk

/-- Date consistency of one storage response: a 2xx response with a parsed
document carries the given date in its date field.  Failing responses are
vacuously consistent. -/
def respDateMatches (r : Resp) (date : String) : Bool :=
  match r with
  | .ok (some b) => b.date == date
  | _ => true

/-! Helper lemmas. -/

/-- Without the en fallback flag, the fallback pattern is a single fetch. -/
theorem fetchWithFallback_false (w : World) (u1 u2 : String) :
    fetchWithFallback w u1 u2 false = (toFetchRes (w u1), [u1]) := by
  unfold fetchWithFallback
  cases w u1 <;> simp [toFetchRes, FetchRes.isOk]

/-- With the en fallback flag, a non-2xx first response triggers the second
fetch. -/
theorem fetchWithFallback_true_notOk (w : World) (u1 u2 : String)
    (h : w u1 = .notOk) :
    fetchWithFallback w u1 u2 true = (toFetchRes (w u2), [u1, u2]) := by
  unfold fetchWithFallback
  rw [h]
  rfl

/-- With the en fallback flag, a 2xx first response is kept. -/
theorem fetchWithFallback_true_ok (w : World) (u1 u2 : String)
    (b : Option JsonDoc) (h : w u1 = .ok b) :
    fetchWithFallback w u1 u2 true = (.ok (.ok b), [u1]) := by
  unfold fetchWithFallback
  rw [h]
  rfl

/-- A network error on the first fetch escapes as an exception. -/
theorem fetchWithFallback_netErr (w : World) (u1 u2 : String) (uf : Bool)
    (h : w u1 = .netErr) :
    fetchWithFallback w u1 u2 uf = (.error (), [u1]) := by
  unfold fetchWithFallback
  rw [h]
  rfl

/-- Path resolution at the default locale. -/
theorem getBriefingPath_ko : getBriefingPath "ko" = API_BASE ++ "/briefing" := rfl

/-- Path resolution at the English locale. -/
theorem getBriefingPath_en : getBriefingPath "en" = API_BASE ++ "/briefing/en" := rfl

/-- Default-locale `finalFetch` on a present, well-formed document. -/
theorem finalFetch_ko_ok (w : World) (bp fp fn : String) (t0 : Trace)
    (b : JsonDoc) (h : w (briefingUrl bp fn) = .ok (some b)) :
    finalFetch w bp fp fn "ko" t0 = (.ok (some b), t0 ++ [briefingUrl bp fn]) := by
  unfold finalFetch
  rw [show ("ko" == "en") = false from rfl, fetchWithFallback_false, h]
  rfl

/-- Default-locale `finalFetch` on a non-2xx response. -/
theorem finalFetch_ko_notOk (w : World) (bp fp fn : String) (t0 : Trace)
    (h : w (briefingUrl bp fn) = .notOk) :
    finalFetch w bp fp fn "ko" t0 = (.ok none, t0 ++ [briefingUrl bp fn]) := by
  unfold finalFetch
  rw [show ("ko" == "en") = false from rfl, fetchWithFallback_false, h]
  rfl

/-- The trace of a default-locale `finalFetch` is one URL, whatever the
storage answers. -/
theorem finalFetch_ko_trace (w : World) (bp fp fn : String) (t0 : Trace) :
    (finalFetch w bp fp fn "ko" t0).2 = t0 ++ [briefingUrl bp fn] := by
  unfold finalFetch
  rw [show ("ko" == "en") = false from rfl, fetchWithFallback_false]
  cases w (briefingUrl bp fn) with
  | ok body => cases body <;> rfl
  | notOk => rfl
  | netErr => rfl

/-- An explicit-period call at the default locale reduces to the final fetch
of the period-suffixed filename alone. -/
theorem getBriefingTry_ko_period (w : World) (d : String) (p : Period)
    (hsuf : (strEndsWith d "-morning" || strEndsWith d "-afternoon") = false) :
    getBriefingTry w d (some p) "ko" =
      finalFetch w (API_BASE ++ "/briefing") (API_BASE ++ "/briefing")
        (d ++ "-" ++ p.str) "ko" [] := by
  simp only [getBriefingTry, getBriefingPath_ko, hsuf, Bool.false_eq_true, if_false]

/-- A no-period call at the default locale whose afternoon and morning
candidates both answer non-2xx reduces to the final fetch of the bare
filename, after the two period fetches. -/
theorem getBriefingTry_ko_noperiod_absent (w : World) (d : String)
    (hsuf : (strEndsWith d "-morning" || strEndsWith d "-afternoon") = false)
    (ha : w (briefingUrl (API_BASE ++ "/briefing") (d ++ "-afternoon")) = .notOk)
    (hm : w (briefingUrl (API_BASE ++ "/briefing") (d ++ "-morning")) = .notOk) :
    getBriefingTry w d none "ko" =
      finalFetch w (API_BASE ++ "/briefing") (API_BASE ++ "/briefing") d "ko"
        ([briefingUrl (API_BASE ++ "/briefing") (d ++ "-afternoon")] ++
         [briefingUrl (API_BASE ++ "/briefing") (d ++ "-morning")]) := by
  simp only [getBriefingTry, getBriefingPath_ko, hsuf, Bool.false_eq_true, if_false,
    show ("ko" == "en") = false from rfl, fetchWithFallback_false, ha, hm, toFetchRes]

/-- English-locale `finalFetch` where the English file answers non-2xx and
the default-locale file is present and well-formed: the default-locale
document is returned. -/
theorem finalFetch_en_fallback_ok (w : World) (fn : String) (t0 : Trace)
    (b : JsonDoc)
    (h1 : w (briefingUrl (API_BASE ++ "/briefing/en") fn) = .notOk)
    (h2 : w (briefingUrl (API_BASE ++ "/briefing") fn) = .ok (some b)) :
    finalFetch w (API_BASE ++ "/briefing/en") (API_BASE ++ "/briefing") fn "en" t0 =
      (.ok (some b), t0 ++ [briefingUrl (API_BASE ++ "/briefing/en") fn,
                            briefingUrl (API_BASE ++ "/briefing") fn]) := by
  unfold finalFetch
  rw [show ("en" == "en") = true from rfl, fetchWithFallback_true_notOk w _ _ h1, h2]
  rfl

/-- A no-period English-locale call all four of whose period candidates
(English and default-locale, afternoon and morning) answer non-2xx reduces to
the final fetch of the bare filename after those four fetches. -/
theorem getBriefingTry_en_noperiod_absent (w : World) (d : String)
    (hsuf : (strEndsWith d "-morning" || strEndsWith d "-afternoon") = false)
    (h1 : w (briefingUrl (API_BASE ++ "/briefing/en") (d ++ "-afternoon")) = .notOk)
    (h2 : w (briefingUrl (API_BASE ++ "/briefing") (d ++ "-afternoon")) = .notOk)
    (h3 : w (briefingUrl (API_BASE ++ "/briefing/en") (d ++ "-morning")) = .notOk)
    (h4 : w (briefingUrl (API_BASE ++ "/briefing") (d ++ "-morning")) = .notOk) :
    getBriefingTry w d none "en" =
      finalFetch w (API_BASE ++ "/briefing/en") (API_BASE ++ "/briefing") d "en"
        ([briefingUrl (API_BASE ++ "/briefing/en") (d ++ "-afternoon"),
          briefingUrl (API_BASE ++ "/briefing") (d ++ "-afternoon")] ++
         [briefingUrl (API_BASE ++ "/briefing/en") (d ++ "-morning"),
          briefingUrl (API_BASE ++ "/briefing") (d ++ "-morning")]) := by
  simp only [getBriefingTry, getBriefingPath_en, hsuf, Bool.false_eq_true, if_false,
    show ("en" == "en") = true from rfl]
  rw [fetchWithFallback_true_notOk w _ _ h1, h2]
  simp only [toFetchRes]
  rw [fetchWithFallback_true_notOk w _ _ h3, h4]
  simp only [toFetchRes]

/-- The fallback pattern fetches at most two URLs. -/
theorem fetchWithFallback_trace_length (w : World) (u1 u2 : String) (uf : Bool) :
    (fetchWithFallback w u1 u2 uf).2.length ≤ 2 := by
  unfold fetchWithFallback
  cases w u1 with
  | ok body => simp [toFetchRes, FetchRes.isOk]
  | notOk => cases uf <;> simp [toFetchRes, FetchRes.isOk]
  | netErr => simp [toFetchRes]

/-- The final fetch adds at most two URLs to the accumulated trace. -/
theorem finalFetch_trace_length (w : World) (bp fp fn l : String) (t0 : Trace) :
    (finalFetch w bp fp fn l t0).2.length ≤ t0.length + 2 := by
  have h := fetchWithFallback_trace_length w (briefingUrl bp fn) (briefingUrl fp fn) (l == "en")
  unfold finalFetch
  rcases hf : fetchWithFallback w (briefingUrl bp fn) (briefingUrl fp fn) (l == "en") with ⟨r, t⟩
  rw [hf] at h
  simp only at h
  rcases r with e | fr
  · simp only [List.length_append]
    omega
  · rcases fr with body | _ <;>
      (simp only [List.length_append]; omega)

/-- One `getBriefing` call fetches at most six URLs. -/
theorem getBriefingTry_trace_length (w : World) (d : String) (p : Option Period)
    (l : String) : (getBriefingTry w d p l).2.length ≤ 6 := by
  simp only [getBriefingTry]
  split
  · have h := finalFetch_trace_length w (getBriefingPath l) (API_BASE ++ "/briefing") d l []
    simp only [List.length_nil] at h
    omega
  · split
    · next p =>
      have h := finalFetch_trace_length w (getBriefingPath l) (API_BASE ++ "/briefing")
        (d ++ "-" ++ p.str) l []
      simp only [List.length_nil] at h
      omega
    · have ha := fetchWithFallback_trace_length w
        (briefingUrl (getBriefingPath l) (d ++ "-afternoon"))
        (briefingUrl (API_BASE ++ "/briefing") (d ++ "-afternoon")) (l == "en")
      split
      · next e t1 heq =>
        rw [heq] at ha
        simp only at ha
        show List.length t1 ≤ 6
        omega
      · next body t1 heq =>
        rw [heq] at ha
        simp only at ha
        show List.length t1 ≤ 6
        omega
      · next t1 heq =>
        rw [heq] at ha
        simp only at ha
        have hm := fetchWithFallback_trace_length w
          (briefingUrl (getBriefingPath l) (d ++ "-morning"))
          (briefingUrl (API_BASE ++ "/briefing") (d ++ "-morning")) (l == "en")
        split
        · next e t2 heq2 =>
          rw [heq2] at hm
          simp only [List.length_append] at hm ⊢
          omega
        · next body t2 heq2 =>
          rw [heq2] at hm
          simp only [List.length_append] at hm ⊢
          omega
        · next t2 heq2 =>
          rw [heq2] at hm
          simp only at hm
          have hf := finalFetch_trace_length w (getBriefingPath l)
            (API_BASE ++ "/briefing") d l (t1 ++ t2)
          simp only [List.length_append] at hf ⊢
          omega

/-- One `getBriefingIndex` call fetches at most two URLs. -/
theorem getBriefingIndexTry_trace_length (w : World) (l : String) :
    (getBriefingIndexTry w l).2.length ≤ 2 := by
  have h := fetchWithFallback_trace_length w (getBriefingPath l ++ "/index.json")
    (API_BASE ++ "/briefing/index.json") (l == "en")
  simp only [getBriefingIndexTry]
  split
  · next e t heq =>
    rw [heq] at h
    simpa using h
  · next t heq =>
    rw [heq] at h
    simpa using h
  · next body t heq =>
    rw [heq] at h
    simpa using h

/-- The interpolated morning filename, written with the inline suffix. -/
theorem dash_morning (d : String) :
    d ++ "-" ++ Period.str .morning = d ++ "-morning" := by
  rw [String.append_assoc]
  rfl

/-- The interpolated afternoon filename, written with the inline suffix. -/
theorem dash_afternoon (d : String) :
    d ++ "-" ++ Period.str .afternoon = d ++ "-afternoon" := by
  rw [String.append_assoc]
  rfl

/-- An explicit-period call at the default locale returns the parse of the
period-suffixed file when it is present and well-formed. -/
theorem getBriefing_period_ok (w : World) (d : String) (p : Period) (b : JsonDoc)
    (hsuf : (strEndsWith d "-morning" || strEndsWith d "-afternoon") = false)
    (h : w (briefingUrl (API_BASE ++ "/briefing") (d ++ "-" ++ p.str)) = .ok (some b)) :
    getBriefing w d (some p) "ko" = some b := by
  rw [getBriefing, getBriefingTry_ko_period w d p hsuf, finalFetch_ko_ok w _ _ _ _ b h]

/-- An explicit-period call at the default locale returns null when the
period-suffixed file answers non-2xx. -/
theorem getBriefing_period_notOk (w : World) (d : String) (p : Period)
    (hsuf : (strEndsWith d "-morning" || strEndsWith d "-afternoon") = false)
    (h : w (briefingUrl (API_BASE ++ "/briefing") (d ++ "-" ++ p.str)) = .notOk) :
    getBriefing w d (some p) "ko" = none := by
  rw [getBriefing, getBriefingTry_ko_period w d p hsuf, finalFetch_ko_notOk w _ _ _ _ h]

/-! Claim theorems. -/

/-- C1: for a date string with no period suffix and no explicit period
argument, when both the afternoon and the morning documents exist in storage
(2xx, well-formed), `getBriefing` returns the afternoon document: the
afternoon candidate is attempted before the morning one. -/
theorem getBriefing_afternoon_priority (w : World) (d : String) (a m : JsonDoc)
    (hsuf : (strEndsWith d "-morning" || strEndsWith d "-afternoon") = false)
    (ha : w (briefingUrl (API_BASE ++ "/briefing") (d ++ "-afternoon")) = .ok (some a))
    (hm : w (briefingUrl (API_BASE ++ "/briefing") (d ++ "-morning")) = .ok (some m)) :
    getBriefing w d none "ko" = some a := by
  simp only [getBriefing, getBriefingTry, getBriefingPath_ko, hsuf,
    show ("ko" == "en") = false from rfl, fetchWithFallback_false, ha,
    Bool.false_eq_true, if_false, toFetchRes, resJson, Except.map]

/-- Witness for the C1 theorem at a concrete storage. -/
theorem getBriefing_afternoon_priority_witness :
    (strEndsWith "2025-01-01" "-morning" || strEndsWith "2025-01-01" "-afternoon") = false ∧
    wBoth (briefingUrl (API_BASE ++ "/briefing") ("2025-01-01" ++ "-afternoon")) = .ok (some docA) ∧
    wBoth (briefingUrl (API_BASE ++ "/briefing") ("2025-01-01" ++ "-morning")) = .ok (some docM) ∧
    getBriefing wBoth "2025-01-01" none "ko" = some docA :=
  ⟨by decide, by decide, by decide,
    getBriefing_afternoon_priority wBoth "2025-01-01" docA docM (by decide) (by decide) (by decide)⟩

/-- C2 counterexample: a call with an explicit period argument whose file is
absent returns null having fetched only the period-suffixed filename — the
bare legacy document exists and parses, yet is never attempted. -/
theorem getBriefing_no_legacy_with_explicit_period :
    wLegacyOnly "/data/briefing/2025-01-01.json" = .ok (some docL) ∧
    getBriefing wLegacyOnly "2025-01-01" (some .morning) "ko" = none ∧
    getBriefingFetches wLegacyOnly "2025-01-01" (some .morning) "ko" =
      ["/data/briefing/2025-01-01-morning.json"] :=
  ⟨by decide, by decide, by decide⟩

/-- C2 (amended): the bare legacy fallback is attempted only by calls with
no period suffix and no explicit period argument.  At the default locale, an
explicit-period call fetches exactly the period-suffixed filename (never the
bare one) and returns null when it answers non-2xx, while a no-period call
whose afternoon and morning candidates answer non-2xx fetches the bare
filename last and returns its parse when it succeeds, null when it answers
non-2xx. -/
theorem getBriefing_legacy_fallback (w : World) (d : String) (b : JsonDoc)
    (hsuf : (strEndsWith d "-morning" || strEndsWith d "-afternoon") = false)
    (ha : w (briefingUrl (API_BASE ++ "/briefing") (d ++ "-afternoon")) = .notOk)
    (hm : w (briefingUrl (API_BASE ++ "/briefing") (d ++ "-morning")) = .notOk) :
    (∀ p : Period,
      w (briefingUrl (API_BASE ++ "/briefing") (d ++ "-" ++ p.str)) = .notOk →
        getBriefing w d (some p) "ko" = none ∧
        getBriefingFetches w d (some p) "ko" =
          [briefingUrl (API_BASE ++ "/briefing") (d ++ "-" ++ p.str)]) ∧
    getBriefingFetches w d none "ko" =
      [briefingUrl (API_BASE ++ "/briefing") (d ++ "-afternoon"),
       briefingUrl (API_BASE ++ "/briefing") (d ++ "-morning"),
       briefingUrl (API_BASE ++ "/briefing") d] ∧
    (w (briefingUrl (API_BASE ++ "/briefing") d) = .ok (some b) →
      getBriefing w d none "ko" = some b) ∧
    (w (briefingUrl (API_BASE ++ "/briefing") d) = .notOk →
      getBriefing w d none "ko" = none) := by
  refine ⟨fun p hp => ⟨?_, ?_⟩, ?_, fun hb => ?_, fun hb => ?_⟩
  · rw [getBriefing, getBriefingTry_ko_period w d p hsuf,
      finalFetch_ko_notOk w _ _ _ _ hp]
  · rw [getBriefingFetches, getBriefingTry_ko_period w d p hsuf,
      finalFetch_ko_notOk w _ _ _ _ hp]
    rfl
  · rw [getBriefingFetches, getBriefingTry_ko_noperiod_absent w d hsuf ha hm,
      finalFetch_ko_trace]
    rfl
  · rw [getBriefing, getBriefingTry_ko_noperiod_absent w d hsuf ha hm,
      finalFetch_ko_ok w _ _ _ _ b hb]
  · rw [getBriefing, getBriefingTry_ko_noperiod_absent w d hsuf ha hm,
      finalFetch_ko_notOk w _ _ _ _ hb]

/-- Witness for the amended C2 theorem at a concrete storage. -/
theorem getBriefing_legacy_fallback_witness :
    (strEndsWith "2025-01-01" "-morning" || strEndsWith "2025-01-01" "-afternoon") = false ∧
    wLegacyOnly (briefingUrl (API_BASE ++ "/briefing") ("2025-01-01" ++ "-afternoon")) = .notOk ∧
    wLegacyOnly (briefingUrl (API_BASE ++ "/briefing") ("2025-01-01" ++ "-morning")) = .notOk ∧
    wLegacyOnly (briefingUrl (API_BASE ++ "/briefing") "2025-01-01") = .ok (some docL) ∧
    getBriefing wLegacyOnly "2025-01-01" none "ko" = some docL :=
  ⟨by decide, by decide, by decide, by decide,
    (getBriefing_legacy_fallback wLegacyOnly "2025-01-01" docL (by decide) (by decide)
      (by decide)).2.2.1 (by decide)⟩

/-- C3 counterexample: a storage where `briefing/en/2025-01-01.json` is
absent and `briefing/2025-01-01.json` exists, yet the English-locale call
returns the English afternoon document instead of the Korean bare-date
document, because the period-suffixed candidates are attempted first. -/
theorem getBriefing_locale_fallback_cex :
    wEnPeriod "/data/briefing/en/2025-01-01.json" = .notOk ∧
    wEnPeriod "/data/briefing/2025-01-01.json" = .ok (some docL) ∧
    getBriefing wEnPeriod "2025-01-01" none "en" = some docA ∧
    docA ≠ docL :=
  ⟨by decide, by decide, by decide, by decide⟩

/-- C3 (amended): when no period-suffixed candidate succeeds (all four answer
non-2xx), the English bare-date document is absent (non-2xx) and the
default-locale bare-date document exists, `getBriefing(date, none, "en")`
returns the default-locale (Korean) document unchanged. -/
theorem getBriefing_locale_fallback (w : World) (d : String) (b : JsonDoc)
    (hsuf : (strEndsWith d "-morning" || strEndsWith d "-afternoon") = false)
    (h1 : w (briefingUrl (API_BASE ++ "/briefing/en") (d ++ "-afternoon")) = .notOk)
    (h2 : w (briefingUrl (API_BASE ++ "/briefing") (d ++ "-afternoon")) = .notOk)
    (h3 : w (briefingUrl (API_BASE ++ "/briefing/en") (d ++ "-morning")) = .notOk)
    (h4 : w (briefingUrl (API_BASE ++ "/briefing") (d ++ "-morning")) = .notOk)
    (h5 : w (briefingUrl (API_BASE ++ "/briefing/en") d) = .notOk)
    (h6 : w (briefingUrl (API_BASE ++ "/briefing") d) = .ok (some b)) :
    getBriefing w d none "en" = some b := by
  rw [getBriefing, getBriefingTry_en_noperiod_absent w d hsuf h1 h2 h3 h4,
    finalFetch_en_fallback_ok w d _ b h5 h6]

/-- Witness for the amended C3 theorem at a concrete storage. -/
theorem getBriefing_locale_fallback_witness :
    wLegacyOnly (briefingUrl (API_BASE ++ "/briefing/en") "2025-01-01") = .notOk ∧
    wLegacyOnly (briefingUrl (API_BASE ++ "/briefing") "2025-01-01") = .ok (some docL) ∧
    getBriefing wLegacyOnly "2025-01-01" none "en" = some docL :=
  ⟨by decide, by decide,
    getBriefing_locale_fallback wLegacyOnly "2025-01-01" docL (by decide) (by decide)
      (by decide) (by decide) (by decide) (by decide) (by decide)⟩

/-- C4 counterexample: the afternoon candidate answers 2xx with a malformed
body while the morning document exists and parses; the call returns null
after fetching only the afternoon URL — the next candidate is never
attempted, and null is returned although not every candidate failed. -/
theorem getBriefing_malformed_aborts :
    wMalformed "/data/briefing/2025-01-01-afternoon.json" = .ok none ∧
    wMalformed "/data/briefing/2025-01-01-morning.json" = .ok (some docM) ∧
    getBriefing wMalformed "2025-01-01" none "ko" = none ∧
    getBriefingFetches wMalformed "2025-01-01" none "ko" =
      ["/data/briefing/2025-01-01-afternoon.json"] :=
  ⟨by decide, by decide, by decide, by decide⟩

/-- C4 (amended): a candidate is successful only if its response is 2xx and
its body parses, but the two failure modes are treated differently.  At the
default locale with no period suffix and no explicit period: a non-2xx
afternoon response causes the morning candidate to be attempted (whose
document is returned when it succeeds); a 2xx afternoon response with a
malformed body throws, is caught by the outer handler, and aborts the call
with null without attempting any further candidate; and when every candidate
answers non-2xx, the call returns null. -/
theorem getBriefing_success_criteria (w : World) (d : String) (m : JsonDoc)
    (hsuf : (strEndsWith d "-morning" || strEndsWith d "-afternoon") = false) :
    (w (briefingUrl (API_BASE ++ "/briefing") (d ++ "-afternoon")) = .ok none →
      getBriefing w d none "ko" = none ∧
      getBriefingFetches w d none "ko" =
        [briefingUrl (API_BASE ++ "/briefing") (d ++ "-afternoon")]) ∧
    (w (briefingUrl (API_BASE ++ "/briefing") (d ++ "-afternoon")) = .notOk →
      w (briefingUrl (API_BASE ++ "/briefing") (d ++ "-morning")) = .ok (some m) →
      getBriefing w d none "ko" = some m) ∧
    (w (briefingUrl (API_BASE ++ "/briefing") (d ++ "-afternoon")) = .notOk →
      w (briefingUrl (API_BASE ++ "/briefing") (d ++ "-morning")) = .notOk →
      w (briefingUrl (API_BASE ++ "/briefing") d) = .notOk →
      getBriefing w d none "ko" = none) := by
  refine ⟨fun hA => ⟨?_, ?_⟩, fun hA hM => ?_, fun hA hM hB => ?_⟩
  · simp only [getBriefing, getBriefingTry, getBriefingPath_ko, hsuf,
      Bool.false_eq_true, if_false, show ("ko" == "en") = false from rfl,
      fetchWithFallback_false, hA, toFetchRes, resJson, Except.map]
  · simp only [getBriefingFetches, getBriefingTry, getBriefingPath_ko, hsuf,
      Bool.false_eq_true, if_false, show ("ko" == "en") = false from rfl,
      fetchWithFallback_false, hA, toFetchRes, resJson, Except.map]
  · simp only [getBriefing, getBriefingTry, getBriefingPath_ko, hsuf,
      Bool.false_eq_true, if_false, show ("ko" == "en") = false from rfl,
      fetchWithFallback_false, hA, hM, toFetchRes, resJson, Except.map]
  · rw [getBriefing, getBriefingTry_ko_noperiod_absent w d hsuf hA hM,
      finalFetch_ko_notOk w _ _ _ _ hB]

/-- Witness for the amended C4 theorem at a concrete storage. -/
theorem getBriefing_success_criteria_witness :
    (strEndsWith "2025-01-01" "-morning" || strEndsWith "2025-01-01" "-afternoon") = false ∧
    wMalformed (briefingUrl (API_BASE ++ "/briefing") ("2025-01-01" ++ "-afternoon")) = .ok none ∧
    getBriefing wMalformed "2025-01-01" none "ko" = none :=
  ⟨by decide, by decide,
    ((getBriefing_success_criteria wMalformed "2025-01-01" docM (by decide)).1
      (by decide)).1⟩

/-- C5 counterexample: an English-locale no-period call over storage with no
documents issues six fetches, exceeding the claimed bound of four for the
document accessor. -/
theorem getBriefing_six_fetches :
    getBriefingFetches wAllAbsent "2025-01-01" none "en" =
      ["/data/briefing/en/2025-01-01-afternoon.json",
       "/data/briefing/2025-01-01-afternoon.json",
       "/data/briefing/en/2025-01-01-morning.json",
       "/data/briefing/2025-01-01-morning.json",
       "/data/briefing/en/2025-01-01.json",
       "/data/briefing/2025-01-01.json"] ∧
    ¬ (getBriefingFetches wAllAbsent "2025-01-01" none "en").length ≤ 4 :=
  ⟨by decide, by decide⟩

/-- C5 (amended): for every input, a single `getBriefing` call issues at most
6 network fetches (6 is attained at the English locale; the default locale
needs at most 3), and a single `getBriefingIndex` call issues at most 2. -/
theorem accessor_fetch_bounds (w : World) (d : String) (p : Option Period)
    (l : String) :
    (getBriefingFetches w d p l).length ≤ 6 ∧
    (getBriefingIndexFetches w l).length ≤ 2 :=
  ⟨getBriefingTry_trace_length w d p l, getBriefingIndexTry_trace_length w l⟩

/-- C6: at the default locale, for a date with no period suffix,
`getBriefingsByDate` returns the empty sequence when neither a
period-suffixed file nor the legacy bare-date file exists, returns exactly
the legacy document when only the legacy file exists, and when both period
documents exist returns them with the morning document before the afternoon
document.  The return type is a sequence, never null. -/
theorem getBriefingsByDate_shape (w : World) (d : String) (m a b : JsonDoc)
    (hsuf : (strEndsWith d "-morning" || strEndsWith d "-afternoon") = false) :
    (w (briefingUrl (API_BASE ++ "/briefing") (d ++ "-morning")) = .notOk →
     w (briefingUrl (API_BASE ++ "/briefing") (d ++ "-afternoon")) = .notOk →
     w (briefingUrl (API_BASE ++ "/briefing") d) = .notOk →
       getBriefingsByDate w d "ko" = []) ∧
    (w (briefingUrl (API_BASE ++ "/briefing") (d ++ "-morning")) = .notOk →
     w (briefingUrl (API_BASE ++ "/briefing") (d ++ "-afternoon")) = .notOk →
     w (briefingUrl (API_BASE ++ "/briefing") d) = .ok (some b) →
       getBriefingsByDate w d "ko" = [b]) ∧
    (w (briefingUrl (API_BASE ++ "/briefing") (d ++ "-morning")) = .ok (some m) →
     w (briefingUrl (API_BASE ++ "/briefing") (d ++ "-afternoon")) = .ok (some a) →
       getBriefingsByDate w d "ko" = [m, a]) := by
  refine ⟨fun hM hA hB => ?_, fun hM hA hB => ?_, fun hM hA => ?_⟩
  · have hm2 : getBriefing w d (some .morning) "ko" = none :=
      getBriefing_period_notOk w d .morning hsuf (by rw [dash_morning]; exact hM)
    have ha2 : getBriefing w d (some .afternoon) "ko" = none :=
      getBriefing_period_notOk w d .afternoon hsuf (by rw [dash_afternoon]; exact hA)
    simp only [getBriefingsByDate, getBriefingPath_ko, hm2, ha2, List.append_nil,
      List.length_nil, if_true]
    rw [finalFetch_ko_notOk w _ _ _ _ hB]
  · have hm2 : getBriefing w d (some .morning) "ko" = none :=
      getBriefing_period_notOk w d .morning hsuf (by rw [dash_morning]; exact hM)
    have ha2 : getBriefing w d (some .afternoon) "ko" = none :=
      getBriefing_period_notOk w d .afternoon hsuf (by rw [dash_afternoon]; exact hA)
    simp only [getBriefingsByDate, getBriefingPath_ko, hm2, ha2, List.append_nil,
      List.length_nil, if_true]
    rw [finalFetch_ko_ok w _ _ _ _ b hB]
  · have hm2 : getBriefing w d (some .morning) "ko" = some m :=
      getBriefing_period_ok w d .morning m hsuf (by rw [dash_morning]; exact hM)
    have ha2 : getBriefing w d (some .afternoon) "ko" = some a :=
      getBriefing_period_ok w d .afternoon a hsuf (by rw [dash_afternoon]; exact hA)
    simp only [getBriefingsByDate, getBriefingPath_ko, hm2, ha2]
    rfl

/-- Witness for the C6 theorem at concrete storages. -/
theorem getBriefingsByDate_shape_witness :
    (strEndsWith "2025-01-01" "-morning" || strEndsWith "2025-01-01" "-afternoon") = false ∧
    wBoth (briefingUrl (API_BASE ++ "/briefing") ("2025-01-01" ++ "-morning")) = .ok (some docM) ∧
    wBoth (briefingUrl (API_BASE ++ "/briefing") ("2025-01-01" ++ "-afternoon")) = .ok (some docA) ∧
    getBriefingsByDate wBoth "2025-01-01" "ko" = [docM, docA] :=
  ⟨by decide, by decide, by decide,
    (getBriefingsByDate_shape wBoth "2025-01-01" docM docA docM (by decide)).2.2
      (by decide) (by decide)⟩

/-- A non-null `getBriefing` result means the try block ended in a parsed
document. -/
theorem getBriefingTry_of_some (w : World) (d : String) (p : Option Period)
    (l : String) (b : JsonDoc) (h : getBriefing w d p l = some b) :
    (getBriefingTry w d p l).1 = .ok (some b) := by
  rw [getBriefing] at h
  cases hx : (getBriefingTry w d p l).1 with
  | ok v =>
    rw [hx] at h
    simp only at h
    rw [h]
  | error e =>
    rw [hx] at h
    simp at h

/-- A parsed document coming out of a default-locale `finalFetch` was stored
at the locale-path URL of its filename. -/
theorem finalFetch_ko_source (w : World) (bp fp fn : String) (t0 : Trace)
    (b : JsonDoc)
    (h : (finalFetch w bp fp fn "ko" t0).1 = .ok (some b)) :
    w (briefingUrl bp fn) = .ok (some b) := by
  unfold finalFetch at h
  rw [show ("ko" == "en") = false from rfl, fetchWithFallback_false] at h
  cases hw : w (briefingUrl bp fn) with
  | ok body =>
    rw [hw] at h
    simp only [toFetchRes] at h
    cases body with
    | some x =>
      simp only [resJson, Except.map, Except.ok.injEq, Option.some.injEq] at h
      rw [h]
    | none => simp [resJson, Except.map] at h
  | notOk =>
    rw [hw] at h
    simp [toFetchRes] at h
  | netErr =>
    rw [hw] at h
    simp [toFetchRes] at h

/-- At the default locale, a non-null no-period `getBriefing` result can only
be a document stored at the afternoon, morning or bare URL of the requested
key. -/
theorem getBriefing_ko_source (w : World) (d : String) (b : JsonDoc)
    (h : getBriefing w d none "ko" = some b) :
    w (briefingUrl (API_BASE ++ "/briefing") (d ++ "-afternoon")) = .ok (some b) ∨
    w (briefingUrl (API_BASE ++ "/briefing") (d ++ "-morning")) = .ok (some b) ∨
    w (briefingUrl (API_BASE ++ "/briefing") d) = .ok (some b) := by
  have h1 := getBriefingTry_of_some w d none "ko" b h
  by_cases hsuf : (strEndsWith d "-morning" || strEndsWith d "-afternoon") = true
  · simp only [getBriefingTry, getBriefingPath_ko, hsuf, if_true] at h1
    exact Or.inr (Or.inr (finalFetch_ko_source w _ _ _ _ b h1))
  · have hsuf2 : (strEndsWith d "-morning" || strEndsWith d "-afternoon") = false := by
      simpa using hsuf
    simp only [getBriefingTry, getBriefingPath_ko, hsuf2, Bool.false_eq_true, if_false,
      show ("ko" == "en") = false from rfl, fetchWithFallback_false] at h1
    cases hA : w (briefingUrl (API_BASE ++ "/briefing") (d ++ "-afternoon")) with
    | ok body =>
      rw [hA] at h1
      simp only [toFetchRes] at h1
      cases body with
      | some x =>
        simp only [resJson, Except.map, Except.ok.injEq, Option.some.injEq] at h1
        exact Or.inl (by rw [h1])
      | none => simp [resJson, Except.map] at h1
    | netErr =>
      rw [hA] at h1
      simp [toFetchRes] at h1
    | notOk =>
      rw [hA] at h1
      simp only [toFetchRes] at h1
      cases hM : w (briefingUrl (API_BASE ++ "/briefing") (d ++ "-morning")) with
      | ok body =>
        rw [hM] at h1
        simp only [toFetchRes] at h1
        cases body with
        | some x =>
          simp only [resJson, Except.map, Except.ok.injEq, Option.some.injEq] at h1
          exact Or.inr (Or.inl (by rw [h1]))
        | none => simp [resJson, Except.map] at h1
      | netErr =>
        rw [hM] at h1
        simp [toFetchRes] at h1
      | notOk =>
        rw [hM] at h1
        simp only [toFetchRes] at h1
        exact Or.inr (Or.inr (finalFetch_ko_source w _ _ _ _ b h1))

/-- C7 counterexample: the index lists 2025-01-02 and the stored afternoon
document for that date carries the date field 1999-01-01; it is returned by
`getRecentBriefings`, so the date field of a returned element need not be a
member of the index dates. -/
theorem getRecentBriefings_date_field_cex :
    getBriefingIndex wWrongDate "ko" =
      some ⟨["2025-01-02"], some "2025-01-02", none, none⟩ ∧
    getRecentBriefings wWrongDate 30 "ko" = [docW] ∧
    docW.date ∉ (["2025-01-02"] : List String) :=
  ⟨by decide, by decide, by decide⟩

/-- Reduction of `getRecentBriefings` once the index is known. -/
theorem getRecentBriefings_eq (w : World) (days : Nat) (l : String)
    (idx : BriefingIndex) (hidx : getBriefingIndex w l = some idx) :
    getRecentBriefings w days l =
      if idx.dates.length = 0 then []
      else ((idx.dates.take days).map (fun date => getBriefing w date none l)).filterMap id := by
  rw [getRecentBriefings, hidx]

/-- C7 (amended): `getRecentBriefings(days)` returns at most
`min days index.dates.length` elements, and the empty sequence when the index
is null or has no dates; and, provided every stored document carries the date
it is stored under (date-consistent storage), the date field of every
returned element is a member of the index dates. -/
theorem getRecentBriefings_bounds (w : World) (days : Nat) :
    (getBriefingIndex w "ko" = none → getRecentBriefings w days "ko" = []) ∧
    ∀ idx, getBriefingIndex w "ko" = some idx →
      (idx.dates = [] → getRecentBriefings w days "ko" = []) ∧
      (getRecentBriefings w days "ko").length ≤ min days idx.dates.length ∧
      ((∀ date ∈ idx.dates,
          respDateMatches
            (w (briefingUrl (API_BASE ++ "/briefing") (date ++ "-afternoon"))) date ∧
          respDateMatches
            (w (briefingUrl (API_BASE ++ "/briefing") (date ++ "-morning"))) date ∧
          respDateMatches (w (briefingUrl (API_BASE ++ "/briefing") date)) date) →
        ∀ b ∈ getRecentBriefings w days "ko", b.date ∈ idx.dates) := by
  refine ⟨fun hn => by simp [getRecentBriefings, hn], fun idx hidx => ⟨?_, ?_, ?_⟩⟩
  · intro hd
    rw [getRecentBriefings_eq w days "ko" idx hidx, hd]
    simp
  · rw [getRecentBriefings_eq w days "ko" idx hidx]
    by_cases hlen : idx.dates.length = 0
    · rw [if_pos hlen]
      simp
    · rw [if_neg hlen]
      calc (((idx.dates.take days).map
            (fun date => getBriefing w date none "ko")).filterMap id).length
          ≤ ((idx.dates.take days).map
            (fun date => getBriefing w date none "ko")).length :=
            List.length_filterMap_le _ _
        _ = (idx.dates.take days).length := List.length_map _ _
        _ = min days idx.dates.length := List.length_take _ _
  · intro hcons b hb
    rw [getRecentBriefings_eq w days "ko" idx hidx] at hb
    split at hb
    · simp at hb
    · rw [List.mem_filterMap] at hb
      obtain ⟨x, hx, hxb⟩ := hb
      simp only [id] at hxb
      subst hxb
      rw [List.mem_map] at hx
      obtain ⟨date, hdate, hf⟩ := hx
      have hdate2 : date ∈ idx.dates := List.mem_of_mem_take hdate
      obtain ⟨c1, c2, c3⟩ := hcons date hdate2
      rcases getBriefing_ko_source w date b hf with hs | hs | hs
      · rw [hs] at c1
        simp only [respDateMatches, beq_iff_eq] at c1
        rw [c1]
        exact hdate2
      · rw [hs] at c2
        simp only [respDateMatches, beq_iff_eq] at c2
        rw [c2]
        exact hdate2
      · rw [hs] at c3
        simp only [respDateMatches, beq_iff_eq] at c3
        rw [c3]
        exact hdate2

/-- Witness for the amended C7 theorem at a date-consistent concrete
storage. -/
theorem getRecentBriefings_bounds_witness :
    getBriefingIndex wConsistent "ko" =
      some ⟨["2025-01-02"], some "2025-01-02", none, none⟩ ∧
    (getRecentBriefings wConsistent 30 "ko").length ≤
      min 30 (["2025-01-02"] : List String).length ∧
    ∀ b ∈ getRecentBriefings wConsistent 30 "ko",
      b.date ∈ (["2025-01-02"] : List String) := by
  have hidx : getBriefingIndex wConsistent "ko" =
      some ⟨["2025-01-02"], some "2025-01-02", none, none⟩ := by decide
  have h := (getRecentBriefings_bounds wConsistent 30).2
    ⟨["2025-01-02"], some "2025-01-02", none, none⟩ hidx
  refine ⟨hidx, h.2.1, h.2.2 ?_⟩
  intro date hdate
  simp only [List.mem_singleton] at hdate
  subst hdate
  exact ⟨by decide, by decide, by decide⟩

/-- Over an all-failing storage, the fallback pattern never yields a 2xx
response with a well-formed body. -/
theorem fetchWithFallback_fail (w : World)
    (hf : ∀ u, w u = .netErr ∨ w u = .notOk ∨ w u = .ok none)
    (u1 u2 : String) (uf : Bool) :
    (fetchWithFallback w u1 u2 uf).1 = .error () ∨
    (fetchWithFallback w u1 u2 uf).1 = .ok .notOk ∨
    (fetchWithFallback w u1 u2 uf).1 = .ok (.ok none) := by
  unfold fetchWithFallback
  rcases hf u1 with h1 | h1 | h1 <;> rw [h1]
  · left
    rfl
  · cases uf with
    | false =>
      right; left
      rfl
    | true =>
      rcases hf u2 with h2 | h2 | h2 <;> simp [toFetchRes, FetchRes.isOk, h2]
  · right; right
    rfl

/-- Over an all-failing storage, the final fetch throws or returns null. -/
theorem finalFetch_fail (w : World)
    (hf : ∀ u, w u = .netErr ∨ w u = .notOk ∨ w u = .ok none)
    (bp fp fn l : String) (t0 : Trace) :
    (finalFetch w bp fp fn l t0).1 = .error () ∨
    (finalFetch w bp fp fn l t0).1 = .ok none := by
  unfold finalFetch
  have h := fetchWithFallback_fail w hf (briefingUrl bp fn) (briefingUrl fp fn) (l == "en")
  rcases hfw : fetchWithFallback w (briefingUrl bp fn) (briefingUrl fp fn) (l == "en")
    with ⟨r, t⟩
  rw [hfw] at h
  simp only at h
  rcases h with h | h | h <;> subst h
  · exact Or.inl rfl
  · exact Or.inr rfl
  · exact Or.inl rfl

/-- Over an all-failing storage, the try block of `getBriefing` throws or
ends in null. -/
theorem getBriefingTry_fail (w : World)
    (hf : ∀ u, w u = .netErr ∨ w u = .notOk ∨ w u = .ok none)
    (d : String) (p : Option Period) (l : String) :
    (getBriefingTry w d p l).1 = .error () ∨ (getBriefingTry w d p l).1 = .ok none := by
  simp only [getBriefingTry]
  split
  · exact finalFetch_fail w hf _ _ _ _ _
  · split
    · exact finalFetch_fail w hf _ _ _ _ _
    · have ha := fetchWithFallback_fail w hf
        (briefingUrl (getBriefingPath l) (d ++ "-afternoon"))
        (briefingUrl (API_BASE ++ "/briefing") (d ++ "-afternoon")) (l == "en")
      split
      · next e t1 heq =>
        left
        rfl
      · next body t1 heq =>
        rw [heq] at ha
        simp only at ha
        rcases ha with ha | ha | ha
        · exact absurd ha (by simp)
        · exact absurd ha (by simp)
        · simp only [Except.ok.injEq, FetchRes.ok.injEq] at ha
          subst ha
          left
          rfl
      · next t1 heq =>
        have hm := fetchWithFallback_fail w hf
          (briefingUrl (getBriefingPath l) (d ++ "-morning"))
          (briefingUrl (API_BASE ++ "/briefing") (d ++ "-morning")) (l == "en")
        split
        · next e t2 heq2 =>
          left
          rfl
        · next body t2 heq2 =>
          rw [heq2] at hm
          simp only at hm
          rcases hm with hm | hm | hm
          · exact absurd hm (by simp)
          · exact absurd hm (by simp)
          · simp only [Except.ok.injEq, FetchRes.ok.injEq] at hm
            subst hm
            left
            rfl
        · next t2 heq2 =>
          exact finalFetch_fail w hf _ _ _ _ _

/-- Over an all-failing storage, `getBriefing` returns null. -/
theorem getBriefing_fail_none (w : World)
    (hf : ∀ u, w u = .netErr ∨ w u = .notOk ∨ w u = .ok none)
    (d : String) (p : Option Period) (l : String) :
    getBriefing w d p l = none := by
  rw [getBriefing]
  rcases getBriefingTry_fail w hf d p l with h | h <;> rw [h]

/-- Over an all-failing storage, the try block of `getBriefingIndex` throws
or ends in null. -/
theorem getBriefingIndexTry_fail (w : World)
    (hf : ∀ u, w u = .netErr ∨ w u = .notOk ∨ w u = .ok none)
    (l : String) :
    (getBriefingIndexTry w l).1 = .error () ∨ (getBriefingIndexTry w l).1 = .ok none := by
  have h := fetchWithFallback_fail w hf (getBriefingPath l ++ "/index.json")
    (API_BASE ++ "/briefing/index.json") (l == "en")
  simp only [getBriefingIndexTry]
  rcases hfw : fetchWithFallback w (getBriefingPath l ++ "/index.json")
    (API_BASE ++ "/briefing/index.json") (l == "en") with ⟨r, t⟩
  rw [hfw] at h
  simp only at h
  rcases h with h | h | h <;> subst h
  · exact Or.inl rfl
  · exact Or.inr rfl
  · exact Or.inl rfl

/-- Over an all-failing storage, `getBriefingIndex` returns null. -/
theorem getBriefingIndex_fail_none (w : World)
    (hf : ∀ u, w u = .netErr ∨ w u = .notOk ∨ w u = .ok none)
    (l : String) :
    getBriefingIndex w l = none := by
  rw [getBriefingIndex]
  rcases getBriefingIndexTry_fail w hf l with h | h <;> rw [h]

/-- Over an all-failing storage, `getBriefingsByDate` returns the empty
sequence. -/
theorem getBriefingsByDate_fail_empty (w : World)
    (hf : ∀ u, w u = .netErr ∨ w u = .notOk ∨ w u = .ok none)
    (d l : String) :
    getBriefingsByDate w d l = [] := by
  have hm := getBriefing_fail_none w hf d (some .morning) l
  have ha := getBriefing_fail_none w hf d (some .afternoon) l
  simp only [getBriefingsByDate, hm, ha]
  rcases finalFetch_fail w hf (getBriefingPath l) (API_BASE ++ "/briefing") d l []
    with h | h <;> simp [h]

/-- Over an all-failing storage, `getRecentBriefings` returns the empty
sequence. -/
theorem getRecentBriefings_fail_empty (w : World)
    (hf : ∀ u, w u = .netErr ∨ w u = .notOk ∨ w u = .ok none)
    (days : Nat) (l : String) :
    getRecentBriefings w days l = [] := by
  rw [getRecentBriefings, getBriefingIndex_fail_none w hf l]

/-- C8: over any storage behaviour in which every URL fails — by network
error, by non-2xx status or by a malformed 2xx body, in any mixture — no
accessor propagates an exception: `getBriefing` and `getBriefingIndex`
return null, and `getBriefingsByDate` and `getRecentBriefings` return the
empty sequence, for every input. -/
theorem accessors_absorb_failures (w : World)
    (hf : ∀ u, w u = .netErr ∨ w u = .notOk ∨ w u = .ok none)
    (d : String) (p : Option Period) (l : String) (days : Nat) :
    getBriefing w d p l = none ∧
    getBriefingIndex w l = none ∧
    getBriefingsByDate w d l = [] ∧
    getRecentBriefings w days l = [] :=
  ⟨getBriefing_fail_none w hf d p l, getBriefingIndex_fail_none w hf l,
   getBriefingsByDate_fail_empty w hf d l, getRecentBriefings_fail_empty w hf days l⟩

/-- Witness for the C8 theorem at the all-network-error storage. -/
theorem accessors_absorb_failures_witness :
    (∀ u, wAllErr u = .netErr ∨ wAllErr u = .notOk ∨ wAllErr u = .ok none) ∧
    getBriefing wAllErr "2025-01-01" none "ko" = none ∧
    getBriefingIndex wAllErr "ko" = none ∧
    getBriefingsByDate wAllErr "2025-01-01" "ko" = [] ∧
    getRecentBriefings wAllErr 30 "ko" = [] :=
  ⟨fun u => Or.inl rfl,
   accessors_absorb_failures wAllErr (fun u => Or.inl rfl) "2025-01-01" none "ko" 30⟩

/-- C9 counterexample: a fetched index document whose `latest` field is
present but is the empty string is normalized with `latest` taken from the
head of `available_dates`, not from the explicit `latest` field.  JS
truthiness treats the empty string as absent. -/
theorem getBriefingIndex_empty_latest :
    wEmptyLatest "/data/briefing/index.json" = .ok (some idxEmptyLatest) ∧
    idxEmptyLatest.latest = some "" ∧
    getBriefingIndex wEmptyLatest "ko" =
      some ⟨["2025-01-01"], some "2025-01-01", some 5, some 7⟩ ∧
    (getBriefingIndex wEmptyLatest "ko").map BriefingIndex.latest ≠
      some idxEmptyLatest.latest :=
  ⟨by decide, by decide, by decide, by decide⟩

/-- C9 (amended): for every successfully fetched and parsed index document
at the default locale, normalization takes `dates` from `available_dates`
(the empty sequence when the field is absent), `latest` from the explicit
`latest` field when it is present and non-empty (JS truthiness), otherwise
from the first element of `available_dates`, otherwise null, and passes
`dates_detail` and `total_briefings` through unchanged. -/
theorem getBriefingIndex_normalization (w : World) (data : JsonDoc)
    (h : w (API_BASE ++ "/briefing" ++ "/index.json") = .ok (some data)) :
    getBriefingIndex w "ko" =
      some { dates := data.available_dates.getD []
             latest :=
               (match data.latest with
                | some s =>
                  if s = "" then (data.available_dates.getD []).head? else some s
                | none => (data.available_dates.getD []).head?)
             dates_detail := data.dates_detail
             total_briefings := data.total_briefings } := by
  rw [getBriefingIndex]
  simp only [getBriefingIndexTry, getBriefingPath_ko,
    show ("ko" == "en") = false from rfl, fetchWithFallback_false, h, toFetchRes,
    resJson, Except.map]
  simp only [normalizeIndex, jsOrString, headOrNull, Option.some.injEq]
  cases hl : data.latest with
  | none => cases hd : data.available_dates <;> simp
  | some s => cases hd : data.available_dates <;> by_cases hs : s = "" <;> simp [hs]

/-- Witness for the amended C9 theorem at a concrete index document. -/
theorem getBriefingIndex_normalization_witness :
    wEmptyLatest (API_BASE ++ "/briefing" ++ "/index.json") = .ok (some idxEmptyLatest) ∧
    getBriefingIndex wEmptyLatest "ko" =
      some { dates := idxEmptyLatest.available_dates.getD []
             latest :=
               (match idxEmptyLatest.latest with
                | some s =>
                  if s = "" then (idxEmptyLatest.available_dates.getD []).head? else some s
                | none => (idxEmptyLatest.available_dates.getD []).head?)
             dates_detail := idxEmptyLatest.dates_detail
             total_briefings := idxEmptyLatest.total_briefings } :=
  ⟨by decide, getBriefingIndex_normalization wEmptyLatest idxEmptyLatest (by decide)⟩

/-- C10: every locale other than "en" behaves exactly like the default
locale "ko": identical results and identical fetch traces for the four
accessors, so the non-en locale resolves to the default briefing path and no
locale-fallback retry is ever issued. -/
theorem non_en_locale_is_default (l : String) (hl : l ≠ "en") (w : World)
    (d : String) (p : Option Period) (days : Nat) :
    getBriefing w d p l = getBriefing w d p "ko" ∧
    getBriefingFetches w d p l = getBriefingFetches w d p "ko" ∧
    getBriefingIndex w l = getBriefingIndex w "ko" ∧
    getBriefingIndexFetches w l = getBriefingIndexFetches w "ko" ∧
    getBriefingsByDate w d l = getBriefingsByDate w d "ko" ∧
    getRecentBriefings w days l = getRecentBriefings w days "ko" := by
  have hbeq : (l == "en") = false := by
    simp only [beq_eq_false_iff_ne]
    exact hl
  have hpath : getBriefingPath l = getBriefingPath "ko" := by
    simp [getBriefingPath, hbeq]
  have hff : ∀ bp fp fn t0, finalFetch w bp fp fn l t0 = finalFetch w bp fp fn "ko" t0 := by
    intro bp fp fn t0
    unfold finalFetch
    rw [hbeq, show ("ko" == "en") = false from rfl]
  have htry : ∀ d2 p2, getBriefingTry w d2 p2 l = getBriefingTry w d2 p2 "ko" := by
    intro d2 p2
    simp only [getBriefingTry, hpath, hbeq, show ("ko" == "en") = false from rfl, hff]
  have hgb : ∀ d2 p2, getBriefing w d2 p2 l = getBriefing w d2 p2 "ko" := by
    intro d2 p2
    rw [getBriefing, getBriefing, htry]
  have hidxtry : getBriefingIndexTry w l = getBriefingIndexTry w "ko" := by
    simp only [getBriefingIndexTry, hpath, hbeq, show ("ko" == "en") = false from rfl]
  have hidx : getBriefingIndex w l = getBriefingIndex w "ko" := by
    rw [getBriefingIndex, getBriefingIndex, hidxtry]
  refine ⟨hgb d p, ?_, hidx, ?_, ?_, ?_⟩
  · rw [getBriefingFetches, getBriefingFetches, htry]
  · rw [getBriefingIndexFetches, getBriefingIndexFetches, hidxtry]
  · simp only [getBriefingsByDate, hpath, hgb, hff]
  · simp only [getRecentBriefings, hidx, hgb]

/-- Witness for the C10 theorem at the locale "fr" over concrete storages. -/
theorem non_en_locale_is_default_witness :
    ("fr" : String) ≠ "en" ∧
    getBriefing wBoth "2025-01-01" none "fr" = getBriefing wBoth "2025-01-01" none "ko" ∧
    getRecentBriefings wConsistent 30 "fr" = getRecentBriefings wConsistent 30 "ko" :=
  ⟨by decide,
   (non_en_locale_is_default "fr" (by decide) wBoth "2025-01-01" none 30).1,
   (non_en_locale_is_default "fr" (by decide) wConsistent "2025-01-02" none 30).2.2.2.2.2⟩

end ClimateInsight
